import Mathlib

/- Shallow embedding of the recurring-activity occurrence engine, completion
   ledger, activity store operations and notification scheduler of the
   `studio` productivity application
   (src/components/providers/app-provider.tsx).

   Modelling conventions:
   * Instants are `Int` milliseconds since the Unix epoch; the browser's
     local time zone is modelled as a fixed zone with no DST transitions, so
     local midnight falls on multiples of `msPerDay`.  The `date-fns`
     helpers used by the source (`addDays`, `addMonths`, `setDate`,
     `getDay`, `getDate`, `startOfDay`, `endOfDay`, `isBefore`, `isAfter`,
     `isWithinInterval`, `subDays`, `subWeeks`, `isSameDay`) are embedded as
     arithmetic on such instants: `addMonths` clamps to the end of the
     target month and `setDate` uses native JavaScript day-of-month
     rollover, exactly as the library does.
   * The ISO `YYYY-MM-DD` occurrence keys produced by
     `formatISO(d, { representation: 'date' })` are in bijection with epoch
     day numbers, so completion ledgers are keyed by `epochDay` instead of
     strings.  JavaScript objects used as maps become association lists with
     JavaScript insertion-order update semantics.
   * `undefined` optional fields become `Option`; JavaScript truthiness
     tests on numbers (`recurrence.dayOfMonth`, `recurrence.endDate`,
     `updates.createdAt`) are modelled as `≠ 0` tests on the wrapped value,
     faithful to the code.
   * React `useState` is modelled by explicit state passing.  Inside one
     scheduler tick the code reads the stale `notifiedToday` closure value
     while queueing functional updates; the embedding reproduces that: all
     dedup membership tests of a tick consult the state at tick entry, and
     the additions (on top of the possibly reset set) take effect for the
     next tick.
-/

/- Calendar arithmetic: model of the date-fns operations used by the code. -/

def msPerDay : Int := 86400000

def msPerHour : Int := 3600000

def msPerMinute : Int := 60000

/-- Day number since 1970-01-01 of the (local) day containing instant `t`. -/
def epochDay (t : Int) : Int := t.fdiv msPerDay

/-- Milliseconds elapsed since local midnight at instant `t`. -/
def msOfDay (t : Int) : Int := t.emod msPerDay

/-- Local midnight of the day containing `t` (`date-fns startOfDay`). -/
def startOfDay (t : Int) : Int := epochDay t * msPerDay

/-- Last millisecond of the day containing `t` (`date-fns endOfDay`). -/
def endOfDay (t : Int) : Int := startOfDay t + msPerDay - 1

/-- Gregorian calendar date `(year, month, day)` of an epoch day number
(Howard Hinnant's `civil_from_days` algorithm, proleptic Gregorian). -/
def civilFromDays (z0 : Int) : Int × Int × Int :=
  let z := z0 + 719468
  let era := z.fdiv 146097
  let doe := z - era * 146097
  let yoe := (doe - doe.fdiv 1460 + doe.fdiv 36524 - doe.fdiv 146096).fdiv 365
  let y := yoe + era * 400
  let doy := doe - (365 * yoe + yoe.fdiv 4 - yoe.fdiv 100)
  let mp := (5 * doy + 2).fdiv 153
  let d := doy - (153 * mp + 2).fdiv 5 + 1
  let m := mp + (if mp < 10 then 3 else -9)
  (y + (if m ≤ 2 then 1 else 0), m, d)

/-- Epoch day number of a Gregorian calendar date
(Howard Hinnant's `days_from_civil` algorithm). -/
def daysFromCivil (y m d : Int) : Int :=
  let y2 := y - (if m ≤ 2 then 1 else 0)
  let era := y2.fdiv 400
  let yoe := y2 - era * 400
  let mp := (m + 9).emod 12
  let doy := (153 * mp + 2).fdiv 5 + d - 1
  let doe := yoe * 365 + yoe.fdiv 4 - yoe.fdiv 100 + doy
  era * 146097 + doe - 719468

def isLeapYear (y : Int) : Bool :=
  y.emod 4 == 0 && (y.emod 100 != 0 || y.emod 400 == 0)

def daysInMonth (y m : Int) : Int :=
  if m == 2 then (if isLeapYear y then 29 else 28)
  else if m == 4 || m == 6 || m == 9 || m == 11 then 30
  else 31

/-- Day of month (1..31) of instant `t` (`date-fns getDate`). -/
def getDate (t : Int) : Int := (civilFromDays (epochDay t)).2.2

/-- Weekday of instant `t`, 0 = Sunday .. 6 = Saturday (`date-fns getDay`);
1970-01-01 was a Thursday. -/
def getDay (t : Int) : Int := (epochDay t + 4).emod 7

/-- `date-fns setDate(t, n)`: sets the day-of-month counting from the first
of `t`'s month, with native JavaScript rollover into adjacent months when
`n` exceeds the month length (or is below 1); keeps the time of day. -/
def setDayOfMonth (t : Int) (n : Int) : Int :=
  let c := civilFromDays (epochDay t)
  (daysFromCivil c.1 c.2.1 1 + (n - 1)) * msPerDay + msOfDay t

/-- `date-fns addMonths(t, n)`: advances `n` calendar months, clamping the
day-of-month to the length of the target month; keeps the time of day. -/
def addMonthsMs (t : Int) (n : Int) : Int :=
  let c := civilFromDays (epochDay t)
  let months := c.1 * 12 + (c.2.1 - 1) + n
  let y2 := months.fdiv 12
  let m2 := months.emod 12 + 1
  let d2 := min c.2.2 (daysInMonth y2 m2)
  daysFromCivil y2 m2 d2 * msPerDay + msOfDay t

/-- `date-fns isWithinInterval(d, { start, end })` with both bounds
inclusive, at full instant precision. -/
def isWithinInterval (d lo hi : Int) : Bool := decide (lo ≤ d ∧ d ≤ hi)

/- Data model (src/lib/types via its uses in app-provider.tsx). -/

inductive RecurrenceType where
  | none
  | daily
  | weekly
  | monthly
deriving DecidableEq, Repr

structure RecurrenceRule where
  type : RecurrenceType
  endDate : Option Int := Option.none
  daysOfWeek : Option (List Int) := Option.none
  dayOfMonth : Option Int := Option.none
deriving DecidableEq, Repr

structure Todo where
  id : String
  text : String
  completed : Bool
deriving DecidableEq, Repr

/-- Master activity record.  `time` is the optional "HH:MM" field, parsed
into (hours, minutes) as the scheduler does with `split(':').map(Number)`;
`completedOccurrences` is the completion ledger keyed by epoch day
(standing for the ISO `YYYY-MM-DD` string key). -/
structure Activity where
  id : String
  title : String := ""
  categoryId : String := ""
  createdAt : Int
  time : Option (Int × Int) := Option.none
  completed : Bool := false
  recurrence : Option RecurrenceRule := Option.none
  completedOccurrences : List (Int × Bool) := []
  todos : List Todo := []
  responsiblePersonId : Option String := Option.none
  notes : Option String := Option.none
deriving DecidableEq, Repr

structure FutureInstance where
  instanceDate : Int
  masterActivityId : String
deriving DecidableEq, Repr

structure Category where
  id : String
  name : String := ""
  iconName : String := ""
  mode : String := "all"
deriving DecidableEq, Repr

structure Assignee where
  id : String
  name : String := ""
deriving DecidableEq, Repr

/- Completion ledger operations: JavaScript object semantics
(`{ ...m }` copy, `m[key] = v` assignment, `delete m[key]`). -/

def ledgerLookup : List (Int × Bool) → Int → Option Bool
  | [], _ => Option.none
  | (k, v) :: rest, k2 => if k = k2 then some v else ledgerLookup rest k2

/-- Replacement of the value stored under a present key, keeping its
position. -/
def replaceLedgerKey : List (Int × Bool) → Int → Bool → List (Int × Bool)
  | [], _, _ => []
  | p :: rest, k, v =>
    if p.1 = k then (k, v) :: replaceLedgerKey rest k v
    else p :: replaceLedgerKey rest k v

/-- JavaScript `m[key] = v` on a string-keyed object: replaces the value in
place if the key exists, otherwise appends in insertion order. -/
def setLedgerKey (m : List (Int × Bool)) (k : Int) (v : Bool) : List (Int × Bool) :=
  if (ledgerLookup m k).isSome then replaceLedgerKey m k v
  else m ++ [(k, v)]

/-- JavaScript `delete m[key]`. -/
def delLedgerKey : List (Int × Bool) → Int → List (Int × Bool)
  | [], _ => []
  | p :: rest, k =>
    if p.1 = k then delLedgerKey rest k
    else p :: delLedgerKey rest k

/-- Truthiness of `masterActivity.completedOccurrences?.[key]`. -/
def isCompletedOn (a : Activity) (k : Int) : Bool :=
  match ledgerLookup a.completedOccurrences k with
  | some true => true
  | _ => false

/- Occurrence generator: generateFutureInstancesForNotifications
(app-provider.tsx lines 139-254), decomposed into the series-end
normalisation, the fast-forward of the start cursor, the per-candidate
validity test, the two advancement rules and the bounded main loop. -/

/-- Truthiness of `recurrence.endDate ? new Date(recurrence.endDate) : null`:
an end date of exactly timestamp 0 is falsy and treated as unset. -/
def seriesEndOf (rec : RecurrenceRule) : Option Int :=
  match rec.endDate with
  | some e => if e = 0 then Option.none else some e
  | Option.none => Option.none

/-- Guard `seriesEndDate && isAfter(currentDate, seriesEndDate)`. -/
def pastSeriesEnd (seriesEnd : Option Int) (t : Int) : Bool :=
  match seriesEnd with
  | some e => decide (e < t)
  | Option.none => false

/-- Candidate validity switch (lines 201-216): daily always, weekly by
`daysOfWeek?.includes(getDay(...))`, monthly by truthy `dayOfMonth` equal to
`getDate(...)`. -/
def validOccurrence (rec : RecurrenceRule) (cur : Int) : Bool :=
  match rec.type with
  | RecurrenceType.daily => true
  | RecurrenceType.weekly =>
    match rec.daysOfWeek with
    | some ds => decide (getDay cur ∈ ds)
    | Option.none => false
  | RecurrenceType.monthly =>
    match rec.dayOfMonth with
    | some dm => decide (dm ≠ 0) && decide (getDate cur = dm)
    | Option.none => false
  | RecurrenceType.none => false

/-- Advancement used while the cursor is still before `createdAt`
(lines 190-198); `Option.none` models the `else break`. -/
def skipAdvance (rec : RecurrenceRule) (cur : Int) : Option Int :=
  match rec.type with
  | RecurrenceType.daily => some (cur + msPerDay)
  | RecurrenceType.weekly => some (cur + msPerDay)
  | RecurrenceType.monthly =>
    match rec.dayOfMonth with
    | some dm => if dm = 0 then some (addMonthsMs cur 1) else some (setDayOfMonth (addMonthsMs cur 1) dm)
    | Option.none => some (addMonthsMs cur 1)
  | RecurrenceType.none => Option.none

/-- Bottom-of-loop advancement (lines 230-251); `Option.none` models the
final `break` for an exhausted type switch. -/
def nextDate (rec : RecurrenceRule) (cur : Int) : Option Int :=
  match rec.type with
  | RecurrenceType.daily => some (cur + msPerDay)
  | RecurrenceType.weekly => some (cur + msPerDay)
  | RecurrenceType.monthly =>
    match rec.dayOfMonth with
    | some dm =>
      if dm = 0 then some (cur + msPerDay)
      else
        let cmtd := setDayOfMonth cur dm
        if cur < cmtd ∧ getDate cmtd = dm then some cmtd
        else some (setDayOfMonth (addMonthsMs cur 1) dm)
    | Option.none => some (cur + msPerDay)
  | RecurrenceType.none => Option.none

/-- Main generation loop (lines 185-252).  The fuel argument models the
`iterations < maxIterations` guard; the source enters the loop with
`maxIterations = 366`, so the loop body runs at most 366 times and the
function is total by construction even under contradictory rules. -/
def genLoop (master : Activity) (rec : RecurrenceRule) (rangeEndDate : Int)
    (seriesEnd : Option Int) : Nat → Int → List FutureInstance
  | 0, _ => []
  | Nat.succ fuel, currentDate =>
    if rangeEndDate < currentDate then []
    else if pastSeriesEnd seriesEnd currentDate then []
    else if currentDate < master.createdAt then
      match skipAdvance rec currentDate with
      | some nd => genLoop master rec rangeEndDate seriesEnd fuel nd
      | Option.none => []
    else if validOccurrence rec currentDate && !isCompletedOn master (epochDay currentDate) then
      { instanceDate := currentDate, masterActivityId := master.id } ::
        (match nextDate rec currentDate with
         | some nd => genLoop master rec rangeEndDate seriesEnd fuel nd
         | Option.none => [])
    else
      match nextDate rec currentDate with
      | some nd => genLoop master rec rangeEndDate seriesEnd fuel nd
      | Option.none => []

/-- Weekly fast-forward inner `while` loop (lines 160-165): steps the
candidate one day at a time until it is at or past both `createdAt` and
`rangeStartDate` and lands on a selected weekday, breaking as soon as the
incremented candidate passes `rangeEndDate`.  The source loop has no
iteration cap; it terminates because the candidate strictly increases and
the break fires once it exceeds the range end. -/
def weeklyFastForward (createdAt rangeStart rangeEnd : Int) (dows : List Int)
    (tempDate : Int) : Int :=
  if tempDate < createdAt ∨ ¬ getDay tempDate ∈ dows ∨ tempDate < rangeStart then
    if rangeEnd < tempDate + msPerDay then tempDate + msPerDay
    else weeklyFastForward createdAt rangeStart rangeEnd dows (tempDate + msPerDay)
  else tempDate
termination_by (rangeEnd + msPerDay - tempDate).toNat
decreasing_by
  simp only [msPerDay] at *
  omega

/-- Monthly fast-forward (lines 166-177). -/
def monthlyFastForward (createdAt rangeStart : Int) (dm : Int) : Int :=
  let tms0 := setDayOfMonth createdAt dm
  let tms := if tms0 < createdAt then addMonthsMs tms0 1 else tms0
  let c0 := setDayOfMonth rangeStart dm
  let c1 := if c0 < rangeStart then addMonthsMs c0 1 else c0
  if c1 < tms then tms else c1

/-- Pre-loop fast-forward of the cursor (lines 156-178): applies only when
`createdAt` is strictly before `rangeStartDate`, and for weekly/monthly
only when the rule's day data is truthy and non-empty. -/
def startCursor (master : Activity) (rec : RecurrenceRule)
    (rangeStartDate rangeEndDate : Int) : Int :=
  if master.createdAt < rangeStartDate then
    match rec.type with
    | RecurrenceType.daily => rangeStartDate
    | RecurrenceType.weekly =>
      match rec.daysOfWeek with
      | some dows =>
        if dows.isEmpty then master.createdAt
        else weeklyFastForward master.createdAt rangeStartDate rangeEndDate dows (startOfDay rangeStartDate)
      | Option.none => master.createdAt
    | RecurrenceType.monthly =>
      match rec.dayOfMonth with
      | some dm =>
        if dm = 0 then master.createdAt
        else monthlyFastForward master.createdAt rangeStartDate dm
      | Option.none => master.createdAt
    | RecurrenceType.none => master.createdAt
  else master.createdAt

/-- `generateFutureInstancesForNotifications(masterActivity, rangeStartDate,
rangeEndDate)` (lines 139-254).  A missing recurrence or one of type
`'none'` yields the single `createdAt` occurrence when it lies within the
window and the activity is not marked completed; otherwise the bounded
walking loop runs from the fast-forwarded cursor. -/
def generateFutureInstancesForNotifications (master : Activity)
    (rangeStartDate rangeEndDate : Int) : List FutureInstance :=
  match master.recurrence with
  | Option.none =>
    if isWithinInterval master.createdAt rangeStartDate rangeEndDate && !master.completed then
      [{ instanceDate := master.createdAt, masterActivityId := master.id }]
    else []
  | some rec =>
    if rec.type = RecurrenceType.none then
      if isWithinInterval master.createdAt rangeStartDate rangeEndDate && !master.completed then
        [{ instanceDate := master.createdAt, masterActivityId := master.id }]
      else []
    else
      genLoop master rec rangeEndDate (seriesEndOf rec) 366
        (startCursor master rec rangeStartDate rangeEndDate)

/-- Truthy test `!masterActivity.recurrence || recurrence.type === 'none'`. -/
def isNonRecurring (a : Activity) : Bool :=
  match a.recurrence with
  | Option.none => true
  | some r => decide (r.type = RecurrenceType.none)

/- Activity store operations (app-provider.tsx lines 1066-1150). -/

/-- `toggleOccurrenceCompletion(masterActivityId, occurrenceDateTimestamp,
completedState)` (lines 1122-1150): resolves the timestamp to its date-only
key, then maps over the collection setting the key to `true` or deleting it. -/
def toggleOccurrenceCompletion (acts : List Activity) (masterActivityId : String)
    (occurrenceDateTimestamp : Int) (completedState : Bool) : List Activity :=
  acts.map (fun act =>
    if act.id = masterActivityId then
      { act with completedOccurrences :=
          if completedState then
            setLedgerKey act.completedOccurrences (epochDay occurrenceDateTimestamp) true
          else
            delLedgerKey act.completedOccurrences (epochDay occurrenceDateTimestamp) }
    else act)

/-- `deleteActivity(activityId)` (lines 1106-1120): filters the collection. -/
def deleteActivity (acts : List Activity) (activityId : String) : List Activity :=
  acts.filter (fun act => decide (act.id ≠ activityId))

def recTypeOf : Option RecurrenceRule → Option RecurrenceType
  | Option.none => Option.none
  | some r => some r.type

def recDomOf : Option RecurrenceRule → Option Int
  | Option.none => Option.none
  | some r => r.dayOfMonth

def recDowOf : Option RecurrenceRule → Option (List Int)
  | Option.none => Option.none
  | some r => r.daysOfWeek

/-- Partial update record (`Partial<Activity>`): an outer `Option.none`
means the field is absent from the update object.  For the optional fields
`time`, `notes` and `responsiblePersonId` the inner option distinguishes an
explicit `undefined`/`null` value.  `updates.recurrence` conflates absent
and `null` (both are falsy in every test the code performs on it), and
callers never pass `id` or `completedOccurrences` (the latter is always
overwritten by the computed ledger). -/
structure ActivityUpdates where
  title : Option String := Option.none
  categoryId : Option String := Option.none
  todos : Option (List Todo) := Option.none
  createdAt : Option Int := Option.none
  time : Option (Option (Int × Int)) := Option.none
  notes : Option (Option String) := Option.none
  completed : Option Bool := Option.none
  recurrence : Option RecurrenceRule := Option.none
  responsiblePersonId : Option (Option String) := Option.none
deriving DecidableEq, Repr

/-- Ledger-clearing test of `updateActivity` (lines 1078-1088): an incoming
recurrence of type `'none'` always clears; otherwise the ledger is cleared
when the incoming type, `dayOfMonth` or `daysOfWeek` (compared via
`JSON.stringify`, i.e. as ordered lists) differs from the stored rule, or a
truthy (nonzero) `updates.createdAt` differs from the stored anchor. -/
def clearsLedger (upd : ActivityUpdates) (act : Activity) : Bool :=
  match upd.recurrence with
  | some r =>
    if r.type = RecurrenceType.none then true
    else
      decide (some r.type ≠ recTypeOf act.recurrence) ||
      decide (r.dayOfMonth ≠ recDomOf act.recurrence) ||
      decide (r.daysOfWeek ≠ recDowOf act.recurrence) ||
      (match upd.createdAt with
       | some t => decide (t ≠ 0) && decide (t ≠ act.createdAt)
       | Option.none => false)
  | Option.none => false

/-- Per-activity body of `updateActivity` (lines 1070-1094): partial merge
`{ ...act, ...updates }` with the recurrence normalisation, the ledger
clearing and the mode-dependent `responsiblePersonId` handling. -/
def applyUpdate (personalMode : Bool) (upd : ActivityUpdates) (act : Activity) : Activity :=
  let updatedRecurrence : Option RecurrenceRule :=
    match upd.recurrence with
    | some r =>
      if r.type = RecurrenceType.none then some { type := RecurrenceType.none }
      else some r
    | Option.none => act.recurrence
  { id := act.id
    title := upd.title.getD act.title
    categoryId := upd.categoryId.getD act.categoryId
    createdAt := upd.createdAt.getD act.createdAt
    time := upd.time.getD act.time
    completed := upd.completed.getD act.completed
    recurrence := updatedRecurrence
    completedOccurrences := if clearsLedger upd act then [] else act.completedOccurrences
    todos := upd.todos.getD act.todos
    responsiblePersonId :=
      if personalMode then
        match upd.responsiblePersonId with
        | some v => v
        | Option.none => act.responsiblePersonId
      else Option.none
    notes := upd.notes.getD act.notes }

/-- `updateActivity(activityId, updates)` (lines 1066-1104): maps the
per-activity merge over the current collection. -/
def updateActivity (personalMode : Bool) (acts : List Activity) (activityId : String)
    (upd : ActivityUpdates) : List Activity :=
  acts.map (fun act => if act.id = activityId then applyUpdate personalMode upd act else act)

/- Category and assignee deletion (app-provider.tsx lines 1260-1280 and
1311-1325). -/

/-- `deleteCategory(categoryId)` (lines 1260-1280): a no-op when the id is
unknown; otherwise removes the category and clears `categoryId` to the
empty string on referencing activities in both the personal and the work
collection. -/
def deleteCategory (cats : List Category) (personalActs workActs : List Activity)
    (categoryId : String) : List Category × List Activity × List Activity :=
  if (cats.find? (fun c => decide (c.id = categoryId))).isSome then
    (cats.filter (fun c => decide (c.id ≠ categoryId)),
     personalActs.map (fun a => if a.categoryId = categoryId then { a with categoryId := "" } else a),
     workActs.map (fun a => if a.categoryId = categoryId then { a with categoryId := "" } else a))
  else (cats, personalActs, workActs)

/-- `deleteAssignee(assigneeId)` (lines 1311-1325): a no-op when the id is
unknown; otherwise removes the assignee and clears `responsiblePersonId` on
referencing activities of the personal collection (assignees are
personal-mode only; the code touches only `setPersonalActivities`). -/
def deleteAssignee (assignees : List Assignee) (personalActs : List Activity)
    (assigneeId : String) : List Assignee × List Activity :=
  if (assignees.find? (fun x => decide (x.id = assigneeId))).isSome then
    (assignees.filter (fun x => decide (x.id ≠ assigneeId)),
     personalActs.map (fun a =>
       if a.responsiblePersonId = some assigneeId then { a with responsiblePersonId := Option.none }
       else a))
  else (assignees, personalActs)

/- Notification scheduler tick (app-provider.tsx lines 696-793).  String
notification keys `id:dateKey:kind` are modelled structurally. -/

structure NotifKey where
  activityId : String
  dayKey : Int
  kind : String
deriving DecidableEq, Repr

structure SchedState where
  lastDay : Option Int
  notified : List NotifKey
deriving DecidableEq, Repr

/-- "Starting soon" section of one tick for one activity (lines 717-742):
for activities with a `time`, scans today's pending occurrences and emits a
`5min_soon` key for each occurrence whose start lies within the next five
minutes, unless the occurrence is completed or the key is already in the
de-duplication set (`stale`, the state read at tick entry). -/
def fiveMinEmissions (a : Activity) (now today : Int) (stale : List NotifKey) : List NotifKey :=
  match a.time with
  | Option.none => []
  | some hm =>
    (generateFutureInstancesForNotifications a today (endOfDay today)).filterMap (fun inst =>
      if !isCompletedOn a (epochDay inst.instanceDate)
         && !decide (({ activityId := a.id, dayKey := epochDay inst.instanceDate,
                        kind := "5min_soon" } : NotifKey) ∈ stale)
         && decide (0 ≤ startOfDay inst.instanceDate + hm.1 * msPerHour + hm.2 * msPerMinute - now)
         && decide (startOfDay inst.instanceDate + hm.1 * msPerHour + hm.2 * msPerMinute - now
                      ≤ 5 * msPerMinute) then
        some { activityId := a.id, dayKey := epochDay inst.instanceDate, kind := "5min_soon" }
      else Option.none)

/-- One threshold notification attempt inside `notify` (lines 755-766):
emits when the calendar condition holds and the key is not yet in the
de-duplication set. -/
def thresholdTry (aid : String) (dk : Int) (kind : String) (cond : Bool)
    (stale : List NotifKey) : List NotifKey :=
  if cond && !decide (({ activityId := aid, dayKey := dk, kind := kind } : NotifKey) ∈ stale) then
    [{ activityId := aid, dayKey := dk, kind := kind }]
  else []

/-- Upcoming-occurrence section of one tick for one activity
(lines 745-788): for recurring activities, scans pending occurrences in
`[tomorrow, today + 8 days]` and fires the weekly 1-day-before or the
monthly 1-week/2-days/1-day-before thresholds (`isSameDay` on start-of-day
values is epoch-day equality). -/
def thresholdEmissions (a : Activity) (today : Int) (stale : List NotifKey) : List NotifKey :=
  match a.recurrence with
  | Option.none => []
  | some rec =>
    if rec.type = RecurrenceType.none then []
    else
      (generateFutureInstancesForNotifications a (today + msPerDay) (today + 8 * msPerDay)).flatMap
        (fun inst =>
          if isCompletedOn a (epochDay inst.instanceDate) then []
          else
            match rec.type with
            | RecurrenceType.weekly =>
              thresholdTry a.id (epochDay inst.instanceDate) "1day_weekly"
                (decide (epochDay today = epochDay (inst.instanceDate - msPerDay))) stale
            | RecurrenceType.monthly =>
              thresholdTry a.id (epochDay inst.instanceDate) "1week_monthly"
                (decide (epochDay today = epochDay (inst.instanceDate - 7 * msPerDay))) stale ++
              thresholdTry a.id (epochDay inst.instanceDate) "2days_monthly"
                (decide (epochDay today = epochDay (inst.instanceDate - 2 * msPerDay))) stale ++
              thresholdTry a.id (epochDay inst.instanceDate) "1day_monthly"
                (decide (epochDay today = epochDay (inst.instanceDate - msPerDay))) stale
            | _ => [])

/-- All keys emitted during one tick: every membership test consults the
de-duplication state as it was at tick entry (the React closure value). -/
def tickEmissions (acts : List Activity) (now : Int) (stale : List NotifKey) : List NotifKey :=
  acts.flatMap (fun a =>
    fiveMinEmissions a now (startOfDay now) stale ++ thresholdEmissions a (startOfDay now) stale)

/-- One scheduler tick (lines 699-790).  When the day-of-month of `now`
differs from the one recorded by the previous tick the de-duplication set
is reset; the reset applies to the stored state (all queued `setNotifiedToday`
updates build on the cleared set) while the membership tests of this very
tick still read the pre-reset closure value, exactly as the React code
does. -/
def schedulerTick (acts : List Activity) (now : Int) (s : SchedState) :
    List NotifKey × SchedState :=
  let curDom := getDate now
  let dayChanged :=
    match s.lastDay with
    | some d => decide (d ≠ curDom)
    | Option.none => false
  let ems := tickEmissions acts now s.notified
  (ems, { lastDay := some curDom, notified := (if dayChanged then [] else s.notified) ++ ems })

/- Concrete data used by counterexamples and witnesses.  Epoch day numbers:
2024-01-01 = 19723, 2024-01-15 = 19737, 2024-01-31 = 19753,
2024-02-15 = 19768, 2024-03-15 = 19797, 2024-03-31 = 19813,
2024-04-15 = 19828, 2024-04-30 = 19843, 2024-12-31 = 20088. -/

def recC2mid : RecurrenceRule :=
  { type := RecurrenceType.monthly, endDate := some (19828 * msPerDay), dayOfMonth := some 15 }

def recC2nine : RecurrenceRule :=
  { type := RecurrenceType.monthly, endDate := some (19828 * msPerDay + 9 * msPerHour),
    dayOfMonth := some 15 }

/-- The spec's end-to-end monthly scenario (created 2024-01-15T09:00,
monthly on the 15th), parameterised by the `endDate` representation of
2024-04-15. -/
def actC2 (rec : RecurrenceRule) : Activity :=
  { id := "c2", createdAt := 19737 * msPerDay + 9 * msPerHour, recurrence := some rec }

def recNoneOnly : RecurrenceRule := { type := RecurrenceType.none }

def c1Act : Activity :=
  { id := "c1", createdAt := 19737 * msPerDay + 9 * msPerHour, completed := true,
    recurrence := some recNoneOnly }

def c1wAct : Activity :=
  { id := "c1w", createdAt := 19737 * msPerDay + 9 * msPerHour,
    recurrence := some recNoneOnly }

def recC3x : RecurrenceRule :=
  { type := RecurrenceType.none, endDate := some (19737 * msPerDay) }

/-- Non-recurring activity whose recurrence carries an `endDate` lying
strictly before its `createdAt`. -/
def c3xAct : Activity :=
  { id := "c3x", createdAt := 19738 * msPerDay, recurrence := some recC3x }

def recC3w : RecurrenceRule :=
  { type := RecurrenceType.daily, endDate := some (19739 * msPerDay) }

def c3wAct : Activity :=
  { id := "c3w", createdAt := 19737 * msPerDay, recurrence := some recC3w }

def recW4 : RecurrenceRule :=
  { type := RecurrenceType.weekly, daysOfWeek := some [] }

def c4Act : Activity :=
  { id := "c4", createdAt := 19737 * msPerDay, recurrence := some recW4 }

def rec31 : RecurrenceRule := { type := RecurrenceType.monthly, dayOfMonth := some 31 }

/-- Monthly activity on day 31 anchored at 2024-01-31. -/
def act31 : Activity :=
  { id := "m31", createdAt := 19753 * msPerDay, recurrence := some rec31 }

def recW5 : RecurrenceRule :=
  { type := RecurrenceType.weekly, daysOfWeek := some [1] }

/-- Weekly activity whose occurrence of 2024-02-15 is already completed. -/
def c5Act : Activity :=
  { id := "w5", createdAt := 19737 * msPerDay, recurrence := some recW5,
    completedOccurrences := [(19768, true)] }

/-- Weekly activity with an untouched ledger entry for 2024-01-15. -/
def c5wAct : Activity :=
  { id := "w5w", createdAt := 19737 * msPerDay, recurrence := some recW5,
    completedOccurrences := [(19737, true)] }

def recW6new : RecurrenceRule :=
  { type := RecurrenceType.weekly, daysOfWeek := some [2] }

def c6wAct : Activity :=
  { id := "c6w", createdAt := 19737 * msPerDay, recurrence := some recW5,
    completedOccurrences := [(19737, true)] }

def updC6w : ActivityUpdates := { recurrence := some recW6new }

/-- Update that supplies an unchanged recurrence together with an anchor of
timestamp 0 (falsy in JavaScript). -/
def updC6x : ActivityUpdates := { recurrence := some recW5, createdAt := some 0 }

def c6xAct : Activity :=
  { id := "c6x", createdAt := 19737 * msPerDay, recurrence := some recW5,
    completedOccurrences := [(19737, true)] }

/-- Non-recurring activity at 2024-01-15 08:00 with time field "09:00". -/
def c7Act : Activity :=
  { id := "n7", createdAt := 19737 * msPerDay + 8 * msPerHour, time := some (9, 0),
    recurrence := some recNoneOnly }

def c7t1 : Int := 19737 * msPerDay + 8 * msPerHour + 56 * msPerMinute

def c7t2 : Int := 19737 * msPerDay + 8 * msPerHour + 57 * msPerMinute

def c7s0 : SchedState := { lastDay := some 14, notified := [] }

def c9Cat : Category := { id := "cat1", name := "Work stuff", iconName := "Briefcase" }

def c9Asg : Assignee := { id := "asg1", name := "Alex" }

def c9ActP : Activity :=
  { id := "p1", createdAt := 19737 * msPerDay, categoryId := "cat1",
    responsiblePersonId := some "asg1" }

def c9ActW : Activity :=
  { id := "w1", createdAt := 19737 * msPerDay, categoryId := "cat1" }

/-- Every instance emitted by the bounded generation loop under an active
series end date lies at or before that date: the loop tests
`isAfter(currentDate, seriesEndDate)` and breaks before any emission. -/
theorem genLoop_le_seriesEnd (master : Activity) (rec : RecurrenceRule) (re e : Int) :
    ∀ (fuel : Nat) (cur : Int), ∀ inst ∈ genLoop master rec re (some e) fuel cur,
      inst.instanceDate ≤ e := by
  intro fuel
  induction fuel with
  | zero => intro cur inst h; simp [genLoop] at h
  | succ n ih =>
    intro cur inst h
    rw [genLoop] at h
    by_cases h1 : re < cur
    · rw [if_pos h1] at h; simp at h
    rw [if_neg h1] at h
    by_cases h2 : pastSeriesEnd (some e) cur = true
    · rw [if_pos h2] at h; simp at h
    rw [if_neg h2] at h
    simp only [pastSeriesEnd, decide_eq_true_eq] at h2
    by_cases h3 : cur < master.createdAt
    · rw [if_pos h3] at h
      cases hsk : skipAdvance rec cur with
      | none => rw [hsk] at h; simp at h
      | some nd => rw [hsk] at h; exact ih nd inst h
    rw [if_neg h3] at h
    by_cases hv : (validOccurrence rec cur && !isCompletedOn master (epochDay cur)) = true
    · rw [if_pos hv] at h
      rcases List.mem_cons.1 h with hh | ht
      · subst hh; simpa using Int.not_lt.1 h2
      · cases hnx : nextDate rec cur with
        | none => rw [hnx] at ht; simp at ht
        | some nd => rw [hnx] at ht; exact ih nd inst ht
    · rw [if_neg hv] at h
      cases hnx : nextDate rec cur with
      | none => rw [hnx] at h; simp at h
      | some nd => rw [hnx] at h; exact ih nd inst h

/-- Under a monthly rule, the generation loop only ever emits candidates
whose `getDate` equals the truthy `dayOfMonth`: the validity switch requires
`getDate(currentDate) === recurrence.dayOfMonth`. -/
theorem genLoop_monthly_dom (master : Activity) (rec : RecurrenceRule) (re : Int)
    (se : Option Int) (hm : rec.type = RecurrenceType.monthly) :
    ∀ (fuel : Nat) (cur : Int), ∀ inst ∈ genLoop master rec re se fuel cur,
      rec.dayOfMonth = some (getDate inst.instanceDate) := by
  intro fuel
  induction fuel with
  | zero => intro cur inst h; simp [genLoop] at h
  | succ n ih =>
    intro cur inst h
    rw [genLoop] at h
    by_cases h1 : re < cur
    · rw [if_pos h1] at h; simp at h
    rw [if_neg h1] at h
    by_cases h2 : pastSeriesEnd se cur = true
    · rw [if_pos h2] at h; simp at h
    rw [if_neg h2] at h
    by_cases h3 : cur < master.createdAt
    · rw [if_pos h3] at h
      cases hsk : skipAdvance rec cur with
      | none => rw [hsk] at h; simp at h
      | some nd => rw [hsk] at h; exact ih nd inst h
    rw [if_neg h3] at h
    by_cases hv : (validOccurrence rec cur && !isCompletedOn master (epochDay cur)) = true
    · rw [if_pos hv] at h
      rcases List.mem_cons.1 h with hh | ht
      · subst hh
        rw [Bool.and_eq_true] at hv
        have hval : validOccurrence rec cur = true := hv.1
        rw [validOccurrence, hm] at hval
        cases hdm : rec.dayOfMonth with
        | none => rw [hdm] at hval; simp at hval
        | some dm =>
          rw [hdm] at hval
          have hg : getDate cur = dm := by
            rw [Bool.and_eq_true] at hval
            simpa using hval.2
          simp [hg]
      · cases hnx : nextDate rec cur with
        | none => rw [hnx] at ht; simp at ht
        | some nd => rw [hnx] at ht; exact ih nd inst ht
    · rw [if_neg hv] at h
      cases hnx : nextDate rec cur with
      | none => rw [hnx] at h; simp at h
      | some nd => rw [hnx] at h; exact ih nd inst h

/-- Under a weekly rule with an empty `daysOfWeek` list the generation loop
emits nothing, for every fuel and start cursor: no candidate weekday is ever
contained in the empty list, and both advancement rules just step one day. -/
theorem genLoop_weekly_empty (master : Activity) (rec : RecurrenceRule) (re : Int)
    (se : Option Int) (ht : rec.type = RecurrenceType.weekly)
    (hd : rec.daysOfWeek = some []) :
    ∀ (fuel : Nat) (cur : Int), genLoop master rec re se fuel cur = [] := by
  intro fuel
  induction fuel with
  | zero => intro cur; rfl
  | succ n ih =>
    intro cur
    rw [genLoop]
    by_cases h1 : re < cur
    · rw [if_pos h1]
    · rw [if_neg h1]
      by_cases h2 : pastSeriesEnd se cur = true
      · rw [if_pos h2]
      · rw [if_neg h2]
        have hval : validOccurrence rec cur = false := by
          rw [validOccurrence, ht, hd]; simp
        have hsk : skipAdvance rec cur = some (cur + msPerDay) := by
          rw [skipAdvance, ht]
        have hnx : nextDate rec cur = some (cur + msPerDay) := by
          rw [nextDate, ht]
        by_cases h3 : cur < master.createdAt
        · rw [if_pos h3, hsk]; exact ih _
        · rw [if_neg h3, hval]; simp only [Bool.false_and, if_false, hnx]; exact ih _

/-- Claim C1 (corrected): for a non-recurring activity (missing recurrence
or type `'none'`) that is NOT marked completed, the generator returns
exactly the singleton `createdAt` occurrence when `rangeStart ≤ createdAt ≤
rangeEnd` and the empty list otherwise.  The completed-activity filter
`!masterActivity.completed`, absent from the claim, is the amendment. -/
theorem c1_nonrecurring_window (a : Activity) (rs re : Int)
    (hrec : isNonRecurring a = true) (hnc : a.completed = false) :
    generateFutureInstancesForNotifications a rs re
      = if rs ≤ a.createdAt ∧ a.createdAt ≤ re
        then [{ instanceDate := a.createdAt, masterActivityId := a.id }] else [] := by
  cases hr : a.recurrence with
  | none =>
    simp only [generateFutureInstancesForNotifications, hr, isWithinInterval, hnc,
      Bool.not_false, Bool.and_true]
    by_cases hw : rs ≤ a.createdAt ∧ a.createdAt ≤ re
    · rw [if_pos (by simpa using hw), if_pos hw]
    · rw [if_neg (by simpa using hw), if_neg hw]
  | some r =>
    have hty : r.type = RecurrenceType.none := by
      rw [isNonRecurring, hr] at hrec
      simpa using hrec
    simp only [generateFutureInstancesForNotifications, hr, if_pos hty, isWithinInterval,
      hnc, Bool.not_false, Bool.and_true]
    by_cases hw : rs ≤ a.createdAt ∧ a.createdAt ≤ re
    · rw [if_pos (by simpa using hw), if_pos hw]
    · rw [if_neg (by simpa using hw), if_neg hw]

theorem c1_witness :
    generateFutureInstancesForNotifications c1wAct (19723 * msPerDay) (19744 * msPerDay)
      = if (19723 * msPerDay : Int) ≤ c1wAct.createdAt ∧ c1wAct.createdAt ≤ 19744 * msPerDay
        then [{ instanceDate := c1wAct.createdAt, masterActivityId := c1wAct.id }] else [] :=
  c1_nonrecurring_window c1wAct (19723 * msPerDay) (19744 * msPerDay) (by decide) rfl

theorem c1_counterexample :
    ((19723 * msPerDay : Int) ≤ c1Act.createdAt ∧ c1Act.createdAt ≤ 19744 * msPerDay)
  ∧ generateFutureInstancesForNotifications c1Act (19723 * msPerDay) (19744 * msPerDay)
      ≠ [{ instanceDate := c1Act.createdAt, masterActivityId := c1Act.id }] := by
  constructor
  · decide
  · decide

/-- Claim C2 (corrected): for the end-to-end scenario (created
2024-01-15T09:00, monthly on the 15th, window 2024-01-01..2024-12-31) the
generator returns the four dates Jan/Feb/Mar/Apr 15 exactly when the
`endDate` instant for 2024-04-15 is at or after the series' 09:00 time of
day; with the date picker's midnight representation of 2024-04-15, the
final occurrence (at 09:00) is strictly after the end date and only the
first three dates are returned. -/
theorem c2_monthly_scenario :
    (generateFutureInstancesForNotifications (actC2 recC2nine) (19723 * msPerDay)
        (endOfDay (20088 * msPerDay))).map (fun i => epochDay i.instanceDate)
      = [19737, 19768, 19797, 19828]
  ∧ (generateFutureInstancesForNotifications (actC2 recC2mid) (19723 * msPerDay)
        (endOfDay (20088 * msPerDay))).map (fun i => epochDay i.instanceDate)
      = [19737, 19768, 19797] := by
  constructor
  · decide
  · decide

theorem c2_counterexample :
    (generateFutureInstancesForNotifications (actC2 recC2mid) (19723 * msPerDay)
        (endOfDay (20088 * msPerDay))).map (fun i => epochDay i.instanceDate)
      ≠ [19737, 19768, 19797, 19828] := by
  decide

/-- Claim C3 (corrected): for every RECURRING activity (type other than
`'none'`) whose `endDate` is set to a nonzero timestamp, no occurrence
strictly after `endDate` is ever emitted, for every window.  The amendment:
non-recurring activities ignore `endDate` entirely (see the
counterexample), and an `endDate` of exactly timestamp 0 is falsy and
treated as unset. -/
theorem c3_series_end_cutoff (a : Activity) (rec : RecurrenceRule) (e rs re : Int)
    (hrec : a.recurrence = some rec) (ht : rec.type ≠ RecurrenceType.none)
    (he : rec.endDate = some e) (hnz : e ≠ 0) :
    ∀ inst ∈ generateFutureInstancesForNotifications a rs re, inst.instanceDate ≤ e := by
  intro inst h
  simp only [generateFutureInstancesForNotifications, hrec] at h
  rw [if_neg ht] at h
  have hse : seriesEndOf rec = some e := by
    simp only [seriesEndOf, he, if_neg hnz]
  rw [hse] at h
  exact genLoop_le_seriesEnd a rec re e 366 _ inst h

theorem c3_witness :
    ({ instanceDate := 19737 * msPerDay, masterActivityId := "c3w" } : FutureInstance).instanceDate
      ≤ 19739 * msPerDay :=
  c3_series_end_cutoff c3wAct recC3w (19739 * msPerDay) (19737 * msPerDay) (19750 * msPerDay)
    rfl (by decide) rfl (by decide)
    { instanceDate := 19737 * msPerDay, masterActivityId := "c3w" } (by decide)

theorem c3_counterexample :
    ∃ inst ∈ generateFutureInstancesForNotifications c3xAct (19738 * msPerDay) (19739 * msPerDay),
      (19737 * msPerDay : Int) < inst.instanceDate := by
  decide

/-- Claim C4 (confirmed): the generator is total by construction — its
loop is entered with the hard cap `maxIterations = 366` (the fuel of
`genLoop`) — and under the contradictory weekly rule with an empty
`daysOfWeek` set it returns the empty list, not an error or divergence;
the second conjunct shows the loop emits nothing for ANY fuel and start
cursor, so the cap only ever cuts iteration, never output, in this case. -/
theorem c4_weekly_empty_bounded (a : Activity) (rec : RecurrenceRule) (rs re : Int)
    (hrec : a.recurrence = some rec) (ht : rec.type = RecurrenceType.weekly)
    (hd : rec.daysOfWeek = some []) :
    generateFutureInstancesForNotifications a rs re = []
  ∧ ∀ (se : Option Int) (fuel : Nat) (cur : Int), genLoop a rec re se fuel cur = [] := by
  refine ⟨?_, fun se fuel cur => genLoop_weekly_empty a rec re se ht hd fuel cur⟩
  simp only [generateFutureInstancesForNotifications, hrec]
  rw [if_neg (by rw [ht]; decide)]
  exact genLoop_weekly_empty a rec re _ ht hd 366 _

theorem c4_witness :
    generateFutureInstancesForNotifications c4Act (19723 * msPerDay) (19744 * msPerDay) = []
  ∧ ∀ (se : Option Int) (fuel : Nat) (cur : Int),
      genLoop c4Act recW4 (19744 * msPerDay) se fuel cur = [] :=
  c4_weekly_empty_bounded c4Act recW4 (19723 * msPerDay) (19744 * msPerDay) rfl rfl rfl

/-- Claim C10 (confirmed): for a monthly activity, every emitted occurrence
has day-of-month exactly equal to the rule's truthy `dayOfMonth` — so a
month lacking that day can contribute no occurrence at all, and neither a
clamped date (day ≠ dayOfMonth) nor a rolled-over date can ever be
emitted.  The second conjunct evaluates the dayOfMonth = 31 series anchored
2024-01-31 over January..April 2024: only 2024-01-31 and 2024-03-31 appear;
February (29 days) and April (30 days) are skipped. -/
theorem c10_monthly_exact_day (a : Activity) (rec : RecurrenceRule) (rs re : Int)
    (hrec : a.recurrence = some rec) (hm : rec.type = RecurrenceType.monthly) :
    (∀ inst ∈ generateFutureInstancesForNotifications a rs re,
        rec.dayOfMonth = some (getDate inst.instanceDate))
  ∧ (generateFutureInstancesForNotifications act31 (19723 * msPerDay)
        (endOfDay (19843 * msPerDay))).map (fun i => epochDay i.instanceDate)
      = [19753, 19813] := by
  constructor
  · intro inst h
    simp only [generateFutureInstancesForNotifications, hrec] at h
    rw [if_neg (by rw [hm]; decide)] at h
    exact genLoop_monthly_dom a rec re _ hm 366 _ inst h
  · decide

theorem c10_witness :
    rec31.dayOfMonth = some (getDate
      ({ instanceDate := 19753 * msPerDay, masterActivityId := "m31" } : FutureInstance).instanceDate) :=
  (c10_monthly_exact_day act31 rec31 (19723 * msPerDay) (endOfDay (19843 * msPerDay)) rfl rfl).1
    { instanceDate := 19753 * msPerDay, masterActivityId := "m31" } (by decide)


theorem ledgerLookup_del_self (m : List (Int × Bool)) (k : Int) :
    ledgerLookup (delLedgerKey m k) k = Option.none := by
  induction m with
  | nil => rfl
  | cons p rest ih =>
    rw [delLedgerKey]
    by_cases hp : p.1 = k
    · rw [if_pos hp]; exact ih
    · rw [if_neg hp, ledgerLookup, if_neg hp]; exact ih

theorem ledgerLookup_del_ne (m : List (Int × Bool)) (k k2 : Int) (hne : k2 ≠ k) :
    ledgerLookup (delLedgerKey m k) k2 = ledgerLookup m k2 := by
  induction m with
  | nil => rfl
  | cons p rest ih =>
    rw [delLedgerKey, ledgerLookup]
    by_cases hp : p.1 = k
    · rw [if_pos hp, if_neg (by rw [hp]; exact fun h => hne h.symm)]
      exact ih
    · rw [if_neg hp, ledgerLookup]
      by_cases hp2 : p.1 = k2
      · rw [if_pos hp2, if_pos hp2]
      · rw [if_neg hp2, if_neg hp2]; exact ih

theorem del_of_lookup_none (m : List (Int × Bool)) (k : Int)
    (h : ledgerLookup m k = Option.none) : delLedgerKey m k = m := by
  induction m with
  | nil => rfl
  | cons p rest ih =>
    rw [ledgerLookup] at h
    by_cases hp : p.1 = k
    · rw [if_pos hp] at h; exact absurd h (by simp)
    · rw [if_neg hp] at h
      rw [delLedgerKey, if_neg hp, ih h]

theorem del_replace_eq_del (m : List (Int × Bool)) (k : Int) (v : Bool) :
    delLedgerKey (replaceLedgerKey m k v) k = delLedgerKey m k := by
  induction m with
  | nil => rfl
  | cons p rest ih =>
    rw [replaceLedgerKey, delLedgerKey]
    by_cases hp : p.1 = k
    · rw [if_pos hp, delLedgerKey, if_pos rfl, if_pos hp]
      exact ih
    · rw [if_neg hp, delLedgerKey, if_neg hp, if_neg hp, ih]

theorem del_append_single (m : List (Int × Bool)) (k : Int) (v : Bool) :
    delLedgerKey (m ++ [(k, v)]) k = delLedgerKey m k := by
  induction m with
  | nil => rw [List.nil_append, delLedgerKey, delLedgerKey, if_pos rfl]; rfl
  | cons p rest ih =>
    rw [List.cons_append, delLedgerKey, delLedgerKey]
    by_cases hp : p.1 = k
    · rw [if_pos hp, if_pos hp]; exact ih
    · rw [if_neg hp, if_neg hp, ih]

theorem del_set_eq_del (m : List (Int × Bool)) (k : Int) (v : Bool) :
    delLedgerKey (setLedgerKey m k v) k = delLedgerKey m k := by
  rw [setLedgerKey]
  by_cases hs : (ledgerLookup m k).isSome
  · rw [if_pos hs]; exact del_replace_eq_del m k v
  · rw [if_neg hs]; exact del_append_single m k v

theorem lookup_replace_no_new_false (m : List (Int × Bool)) (k k2 : Int)
    (h : ledgerLookup (replaceLedgerKey m k true) k2 = some false) :
    ledgerLookup m k2 = some false := by
  induction m with
  | nil => exact absurd h (by simp [replaceLedgerKey, ledgerLookup])
  | cons p rest ih =>
    rw [replaceLedgerKey] at h
    by_cases hp : p.1 = k
    · rw [if_pos hp, ledgerLookup] at h
      by_cases hk2 : k = k2
      · rw [if_pos hk2] at h; exact absurd h (by simp)
      · rw [if_neg hk2] at h
        rw [ledgerLookup, if_neg (by rw [hp]; exact hk2)]
        exact ih h
    · rw [if_neg hp, ledgerLookup] at h
      rw [ledgerLookup]
      by_cases hp2 : p.1 = k2
      · rw [if_pos hp2] at h; rw [if_pos hp2]; exact h
      · rw [if_neg hp2] at h; rw [if_neg hp2]; exact ih h

theorem lookup_append_no_new_false (m : List (Int × Bool)) (k k2 : Int)
    (h : ledgerLookup (m ++ [(k, true)]) k2 = some false) :
    ledgerLookup m k2 = some false := by
  induction m with
  | nil =>
    rw [List.nil_append, ledgerLookup] at h
    by_cases hk2 : k = k2
    · rw [if_pos hk2] at h; exact absurd h (by simp)
    · rw [if_neg hk2] at h; exact absurd h (by simp [ledgerLookup])
  | cons p rest ih =>
    rw [List.cons_append, ledgerLookup] at h
    rw [ledgerLookup]
    by_cases hp2 : p.1 = k2
    · rw [if_pos hp2] at h; rw [if_pos hp2]; exact h
    · rw [if_neg hp2] at h; rw [if_neg hp2]; exact ih h

theorem lookup_set_no_new_false (m : List (Int × Bool)) (k k2 : Int)
    (h : ledgerLookup (setLedgerKey m k true) k2 = some false) :
    ledgerLookup m k2 = some false := by
  rw [setLedgerKey] at h
  by_cases hs : (ledgerLookup m k).isSome
  · rw [if_pos hs] at h; exact lookup_replace_no_new_false m k k2 h
  · rw [if_neg hs] at h; exact lookup_append_no_new_false m k k2 h

/-- Claim C5 (corrected): toggling an occurrence complete then incomplete
(1) equals deleting the date key on the matching activities — the key ends
absent (never stored as `false`) and every other key and every other
activity is untouched; (2) restores the collection exactly whenever the
key was absent beforehand; and (3) never introduces a `false` value that
was not already present.  The amendment is the key-absent proviso in (2):
when the occurrence was already completed, the round trip deletes the
pre-existing `true` entry instead of restoring it (see the
counterexample). -/
theorem c5_toggle_roundtrip (acts : List Activity) (mid : String) (ts : Int) :
    toggleOccurrenceCompletion (toggleOccurrenceCompletion acts mid ts true) mid ts false
      = acts.map (fun a =>
          if a.id = mid then
            { a with completedOccurrences := delLedgerKey a.completedOccurrences (epochDay ts) }
          else a)
  ∧ ((∀ a ∈ acts, a.id = mid → ledgerLookup a.completedOccurrences (epochDay ts) = Option.none) →
      toggleOccurrenceCompletion (toggleOccurrenceCompletion acts mid ts true) mid ts false = acts)
  ∧ (∀ b ∈ toggleOccurrenceCompletion acts mid ts true, ∀ k,
        ledgerLookup b.completedOccurrences k = some false →
        ∃ a ∈ acts, ledgerLookup a.completedOccurrences k = some false) := by
  have hpart1 :
      toggleOccurrenceCompletion (toggleOccurrenceCompletion acts mid ts true) mid ts false
        = acts.map (fun a =>
            if a.id = mid then
              { a with completedOccurrences := delLedgerKey a.completedOccurrences (epochDay ts) }
            else a) := by
    induction acts with
    | nil => rfl
    | cons a rest ih =>
      simp only [toggleOccurrenceCompletion, List.map_cons] at ih ⊢
      by_cases ha : a.id = mid
      · simp only [if_pos ha, ih]
        simp [del_set_eq_del]
      · simp only [if_neg ha, ih]
  refine ⟨hpart1, ?_, ?_⟩
  · intro hnone
    rw [hpart1]
    have : ∀ l : List Activity,
        (∀ a ∈ l, a.id = mid → ledgerLookup a.completedOccurrences (epochDay ts) = Option.none) →
        l.map (fun a =>
            if a.id = mid then
              { a with completedOccurrences := delLedgerKey a.completedOccurrences (epochDay ts) }
            else a) = l := by
      intro l
      induction l with
      | nil => intro _; rfl
      | cons a rest ih =>
        intro hn
        rw [List.map_cons, ih (fun x hx => hn x (List.mem_cons_of_mem a hx))]
        by_cases ha : a.id = mid
        · rw [if_pos ha, del_of_lookup_none _ _ (hn a (List.mem_cons_self a rest) ha)]
        · rw [if_neg ha]
    exact this acts hnone
  · intro b hb k hk
    rw [toggleOccurrenceCompletion] at hb
    rcases List.mem_map.1 hb with ⟨a, hamem, hab⟩
    refine ⟨a, hamem, ?_⟩
    by_cases ha : a.id = mid
    · rw [if_pos ha] at hab
      rw [← hab] at hk
      exact lookup_set_no_new_false _ _ _ hk
    · rw [if_neg ha] at hab
      rw [← hab] at hk
      exact hk

theorem c5_witness :
    toggleOccurrenceCompletion (toggleOccurrenceCompletion [c5wAct] "w5w" (19768 * msPerDay) true)
        "w5w" (19768 * msPerDay) false
      = [c5wAct] :=
  (c5_toggle_roundtrip [c5wAct] "w5w" (19768 * msPerDay)).2.1 (by decide)

theorem c5_counterexample :
    toggleOccurrenceCompletion (toggleOccurrenceCompletion [c5Act] "w5" (19768 * msPerDay) true)
        "w5" (19768 * msPerDay) false
      ≠ [c5Act] := by
  decide

/-- Claim C6 (corrected): for every stored activity matched by the update,
when the update supplies a recurrence and either its type, `dayOfMonth` or
`daysOfWeek` (compared as ordered lists, as `JSON.stringify` does) differs
from the stored rule, or the update carries a NONZERO `createdAt` differing
from the stored anchor, `updateActivity` leaves the activity's
`completedOccurrences` equal to the empty map, cleared as part of the same
single merge.  The amendment is the nonzero proviso: a new anchor of
timestamp 0 is falsy in the guard `updates.createdAt && ...` and does not
clear (see the counterexample). -/
theorem c6_material_change_clears (personalMode : Bool) (acts : List Activity)
    (aid : String) (upd : ActivityUpdates) (r : RecurrenceRule)
    (hr : upd.recurrence = some r) :
    ∀ pr ∈ List.zip acts (updateActivity personalMode acts aid upd),
      pr.1.id = aid →
      (some r.type ≠ recTypeOf pr.1.recurrence ∨
       r.dayOfMonth ≠ recDomOf pr.1.recurrence ∨
       r.daysOfWeek ≠ recDowOf pr.1.recurrence ∨
       (∃ t, upd.createdAt = some t ∧ t ≠ 0 ∧ t ≠ pr.1.createdAt)) →
      pr.2.completedOccurrences = [] := by
  have hclear : ∀ a : Activity, a.id = aid →
      (some r.type ≠ recTypeOf a.recurrence ∨
       r.dayOfMonth ≠ recDomOf a.recurrence ∨
       r.daysOfWeek ≠ recDowOf a.recurrence ∨
       (∃ t, upd.createdAt = some t ∧ t ≠ 0 ∧ t ≠ a.createdAt)) →
      (applyUpdate personalMode upd a).completedOccurrences = [] := by
    intro a _ hmat
    have hcl : clearsLedger upd a = true := by
      simp only [clearsLedger, hr]
      by_cases hnone : r.type = RecurrenceType.none
      · rw [if_pos hnone]
      · rw [if_neg hnone]
        rcases hmat with h1 | h2 | h3 | ⟨t, ht, htz, hta⟩
        · simp [h1]
        · simp [h2]
        · simp [h3]
        · rw [ht]
          simp [htz, hta]
    simp [applyUpdate, hcl]
  intro pr hpr hid hmat
  induction acts with
  | nil => simp [updateActivity] at hpr
  | cons a rest ih =>
    rw [updateActivity, List.map_cons, List.zip_cons_cons] at hpr
    rcases List.mem_cons.1 hpr with hh | ht2
    · subst hh
      simp only at hid hmat ⊢
      rw [if_pos hid]
      exact hclear a hid hmat
    · exact ih ht2

theorem c6_witness :
    (applyUpdate true updC6w c6wAct).completedOccurrences = [] :=
  c6_material_change_clears true [c6wAct] "c6w" updC6w recW6new rfl
    (c6wAct, applyUpdate true updC6w c6wAct) (by decide) rfl
    (Or.inr (Or.inr (Or.inl (by decide))))

theorem c6_counterexample :
    ∃ b ∈ updateActivity true [c6xAct] "c6x" updC6x, b.completedOccurrences ≠ [] := by
  decide

/-- Claim C8 (confirmed): calling `toggleOccurrenceCompletion`,
`updateActivity` or `deleteActivity` with an activity id not present in the
collection leaves the collection exactly unchanged; the operations are
total functions, so no error reaches the caller. -/
theorem c8_unknown_id_noop (acts : List Activity) (xid : String)
    (h : ∀ a ∈ acts, a.id ≠ xid) :
    (∀ (ts : Int) (b : Bool), toggleOccurrenceCompletion acts xid ts b = acts)
  ∧ (∀ (personalMode : Bool) (upd : ActivityUpdates),
       updateActivity personalMode acts xid upd = acts)
  ∧ deleteActivity acts xid = acts := by
  refine ⟨?_, ?_, ?_⟩
  · intro ts b
    rw [toggleOccurrenceCompletion]
    induction acts with
    | nil => rfl
    | cons a rest ih =>
      rw [List.map_cons, if_neg (h a (List.mem_cons_self a rest)),
        ih (fun x hx => h x (List.mem_cons_of_mem a hx))]
  · intro personalMode upd
    rw [updateActivity]
    induction acts with
    | nil => rfl
    | cons a rest ih =>
      rw [List.map_cons, if_neg (h a (List.mem_cons_self a rest)),
        ih (fun x hx => h x (List.mem_cons_of_mem a hx))]
  · rw [deleteActivity]
    induction acts with
    | nil => rfl
    | cons a rest ih =>
      rw [List.filter_cons, if_pos (by simp [h a (List.mem_cons_self a rest)]),
        ih (fun x hx => h x (List.mem_cons_of_mem a hx))]

theorem c8_witness :
    toggleOccurrenceCompletion [c5wAct] "ghost" 0 true = [c5wAct]
  ∧ updateActivity true [c5wAct] "ghost" {} = [c5wAct]
  ∧ deleteActivity [c5wAct] "ghost" = [c5wAct] :=
  ⟨(c8_unknown_id_noop [c5wAct] "ghost" (by decide)).1 0 true,
   (c8_unknown_id_noop [c5wAct] "ghost" (by decide)).2.1 true {},
   (c8_unknown_id_noop [c5wAct] "ghost" (by decide)).2.2⟩

/-- Mapping a function over a list relates it pointwise to the original. -/
theorem forall2_map_self {α β : Type} (l : List α) (f : α → β) (R : α → β → Prop)
    (h : ∀ a ∈ l, R a (f a)) : List.Forall₂ R l (l.map f) := by
  induction l with
  | nil => exact List.Forall₂.nil
  | cons a rest ih =>
    exact List.Forall₂.cons (h a (List.mem_cons_self a rest))
      (ih (fun x hx => h x (List.mem_cons_of_mem a hx)))

/-- Claim C9 (confirmed): deleting an existing category rewrites every
activity of BOTH collections to an otherwise-identical activity whose
`categoryId` is the empty string exactly when it referenced the deleted
category (no activity is ever dropped — `Forall₂` forces equal length and
order); deleting an existing assignee likewise clears
`responsiblePersonId` on referencing activities of the personal collection
(assignees are personal-mode only). -/
theorem c9_reference_clearing (cats : List Category) (assignees : List Assignee)
    (personalActs workActs : List Activity) (cid aid : String)
    (hc : ∃ c ∈ cats, c.id = cid) (ha : ∃ x ∈ assignees, x.id = aid) :
    List.Forall₂
      (fun a b => b = { a with categoryId := if a.categoryId = cid then "" else a.categoryId })
      personalActs (deleteCategory cats personalActs workActs cid).2.1
  ∧ List.Forall₂
      (fun a b => b = { a with categoryId := if a.categoryId = cid then "" else a.categoryId })
      workActs (deleteCategory cats personalActs workActs cid).2.2
  ∧ List.Forall₂
      (fun a b => b = { a with responsiblePersonId :=
          if a.responsiblePersonId = some aid then Option.none else a.responsiblePersonId })
      personalActs (deleteAssignee assignees personalActs aid).2 := by
  have hcf : (cats.find? (fun c => decide (c.id = cid))).isSome := by
    rcases hc with ⟨c, hcm, hcid⟩
    rw [List.find?_isSome]
    exact ⟨c, hcm, by simp [hcid]⟩
  have haf : (assignees.find? (fun x => decide (x.id = aid))).isSome := by
    rcases ha with ⟨x, hxm, hxid⟩
    rw [List.find?_isSome]
    exact ⟨x, hxm, by simp [hxid]⟩
  refine ⟨?_, ?_, ?_⟩
  · rw [deleteCategory, if_pos hcf]
    apply forall2_map_self
    intro a _
    by_cases hac : a.categoryId = cid
    · rw [if_pos hac, if_pos hac]
    · rw [if_neg hac, if_neg hac]
  · rw [deleteCategory, if_pos hcf]
    apply forall2_map_self
    intro a _
    by_cases hac : a.categoryId = cid
    · rw [if_pos hac, if_pos hac]
    · rw [if_neg hac, if_neg hac]
  · rw [deleteAssignee, if_pos haf]
    apply forall2_map_self
    intro a _
    by_cases har : a.responsiblePersonId = some aid
    · rw [if_pos har, if_pos har]
    · rw [if_neg har, if_neg har]

theorem c9_witness :
    List.Forall₂
      (fun a b => b = { a with categoryId := if a.categoryId = "cat1" then "" else a.categoryId })
      [c9ActP] (deleteCategory [c9Cat] [c9ActP] [c9ActW] "cat1").2.1
  ∧ List.Forall₂
      (fun a b => b = { a with categoryId := if a.categoryId = "cat1" then "" else a.categoryId })
      [c9ActW] (deleteCategory [c9Cat] [c9ActP] [c9ActW] "cat1").2.2
  ∧ List.Forall₂
      (fun a b => b = { a with responsiblePersonId :=
          if a.responsiblePersonId = some "asg1" then Option.none else a.responsiblePersonId })
      [c9ActP] (deleteAssignee [c9Asg] [c9ActP] "asg1").2 :=
  c9_reference_clearing [c9Cat] [c9Asg] [c9ActP] [c9ActW] "cat1" "asg1"
    ⟨c9Cat, by decide, rfl⟩ ⟨c9Asg, by decide, rfl⟩

/-- Every `5min_soon` key emitted by a tick was absent from the
de-duplication set the tick read at entry. -/
theorem mem_fiveMin_not_stale {a : Activity} {now today : Int} {stale : List NotifKey}
    {k : NotifKey} (h : k ∈ fiveMinEmissions a now today stale) : k ∉ stale := by
  rw [fiveMinEmissions] at h
  cases htime : a.time with
  | none => rw [htime] at h; simp at h
  | some hm =>
    rw [htime] at h
    rcases List.mem_filterMap.1 h with ⟨inst, _, hf⟩
    by_cases hc : (!isCompletedOn a (epochDay inst.instanceDate)
         && !decide (({ activityId := a.id, dayKey := epochDay inst.instanceDate,
                        kind := "5min_soon" } : NotifKey) ∈ stale)
         && decide (0 ≤ startOfDay inst.instanceDate + hm.1 * msPerHour + hm.2 * msPerMinute - now)
         && decide (startOfDay inst.instanceDate + hm.1 * msPerHour + hm.2 * msPerMinute - now
                      ≤ 5 * msPerMinute)) = true
    · rw [if_pos hc] at hf
      have hk := Option.some.inj hf
      subst hk
      rw [Bool.and_eq_true, Bool.and_eq_true, Bool.and_eq_true] at hc
      simpa using hc.1.1.2
    · rw [if_neg hc] at hf
      exact absurd hf (by simp)

/-- A threshold notification attempt only emits keys absent from the
de-duplication set. -/
theorem mem_thresholdTry_not_stale {aid : String} {dk : Int} {kind : String} {cond : Bool}
    {stale : List NotifKey} {k : NotifKey} (h : k ∈ thresholdTry aid dk kind cond stale) :
    k ∉ stale := by
  rw [thresholdTry] at h
  by_cases hc : (cond && !decide (({ activityId := aid, dayKey := dk, kind := kind } : NotifKey)
      ∈ stale)) = true
  · rw [if_pos hc] at h
    rcases List.mem_singleton.1 h with hk
    subst hk
    rw [Bool.and_eq_true] at hc
    simpa using hc.2
  · rw [if_neg hc] at h
    simp at h

/-- Every upcoming-occurrence threshold key emitted by a tick was absent
from the de-duplication set the tick read at entry. -/
theorem mem_threshold_not_stale {a : Activity} {today : Int} {stale : List NotifKey}
    {k : NotifKey} (h : k ∈ thresholdEmissions a today stale) : k ∉ stale := by
  cases hrec : a.recurrence with
  | none => simp only [thresholdEmissions, hrec] at h; simp at h
  | some rec =>
    simp only [thresholdEmissions, hrec] at h
    by_cases hty : rec.type = RecurrenceType.none
    · rw [if_pos hty] at h; simp at h
    · rw [if_neg hty] at h
      rcases List.mem_flatMap.1 h with ⟨inst, _, hin⟩
      by_cases hcmp : isCompletedOn a (epochDay inst.instanceDate) = true
      · rw [if_pos hcmp] at hin; simp at hin
      · rw [if_neg hcmp] at hin
        cases hty2 : rec.type with
        | weekly =>
          rw [hty2] at hin
          exact mem_thresholdTry_not_stale hin
        | monthly =>
          rw [hty2] at hin
          rcases List.mem_append.1 hin with h12 | h3
          · rcases List.mem_append.1 h12 with h1 | h2
            · exact mem_thresholdTry_not_stale h1
            · exact mem_thresholdTry_not_stale h2
          · exact mem_thresholdTry_not_stale h3
        | none => rw [hty2] at hin; simp at hin
        | daily => rw [hty2] at hin; simp at hin

/-- Every key emitted by a tick was absent from the de-duplication set the
tick read at entry. -/
theorem mem_tickEmissions_not_stale {acts : List Activity} {now : Int}
    {stale : List NotifKey} {k : NotifKey} (h : k ∈ tickEmissions acts now stale) :
    k ∉ stale := by
  rw [tickEmissions] at h
  rcases List.mem_flatMap.1 h with ⟨a, _, hin⟩
  rcases List.mem_append.1 hin with h5 | hth
  · exact mem_fiveMin_not_stale h5
  · exact mem_threshold_not_stale hth

/-- Claim C7 (confirmed): for two consecutive scheduler ticks on the same
wall-clock day, no key (in particular no `5min_soon` key for any
(activity, occurrence-date) pair) emitted by the first tick is emitted
again by the second: the first tick's emissions are recorded in the stored
de-duplication set, which the second tick's membership tests consult.  And
whenever a tick observes a day-of-month different from the one recorded by
the previous tick, the stored set is reset: afterwards it holds exactly the
keys emitted by that tick, so a key notified on the previous day may fire
again on a later tick of the new day. -/
theorem c7_scheduler_dedup (acts : List Activity) (s : SchedState) (t1 t2 : Int)
    (hsame : getDate t1 = getDate t2) :
    (∀ k ∈ (schedulerTick acts t2 (schedulerTick acts t1 s).2).1,
        k ∉ (schedulerTick acts t1 s).1)
  ∧ (∀ d, s.lastDay = some d → d ≠ getDate t1 →
        (schedulerTick acts t1 s).2.notified = (schedulerTick acts t1 s).1) := by
  constructor
  · intro k hk hk1
    have h2 : (schedulerTick acts t2 (schedulerTick acts t1 s).2).1
        = tickEmissions acts t2 (schedulerTick acts t1 s).2.notified := rfl
    rw [h2] at hk
    have hnot := mem_tickEmissions_not_stale hk
    apply hnot
    have h1 : (schedulerTick acts t1 s).2.notified
        = (if (match s.lastDay with
               | some d => decide (d ≠ getDate t1)
               | Option.none => false) = true then [] else s.notified)
            ++ (schedulerTick acts t1 s).1 := rfl
    rw [h1]
    exact List.mem_append_right _ hk1
  · intro d hd hne
    simp [schedulerTick, hd, hne]

theorem c7_witness :
    (∀ k ∈ (schedulerTick [c7Act] c7t2 (schedulerTick [c7Act] c7t1 c7s0).2).1,
        k ∉ (schedulerTick [c7Act] c7t1 c7s0).1)
  ∧ (schedulerTick [c7Act] c7t1 c7s0).2.notified = (schedulerTick [c7Act] c7t1 c7s0).1 :=
  ⟨(c7_scheduler_dedup [c7Act] c7s0 c7t1 c7t2 (by decide)).1,
   (c7_scheduler_dedup [c7Act] c7s0 c7t1 c7t2 (by decide)).2 14 rfl (by decide)⟩

/-- One concrete tick showing the 5-minute notification actually fires
(non-vacuity of the scheduler embedding): at 08:56 the 09:00 activity
produces its `5min_soon` key, and the second tick one minute later emits
nothing for it. -/
theorem schedulerTick_emits_concrete :
    (schedulerTick [c7Act] c7t1 c7s0).1
      = [{ activityId := "n7", dayKey := 19737, kind := "5min_soon" }]
  ∧ (schedulerTick [c7Act] c7t2 (schedulerTick [c7Act] c7t1 c7s0).2).1 = [] := by
  constructor
  · decide
  · decide
